import Mathlib

/-!
# Verification of the CC-Lab event-registration caching core

Shallow embedding of `CC Lab-2/main.py` and `CC Lab-2/database.py`:
the per-process caching layer (catalog cache and per-user registrations
cache), the registration writer, the user-account registration handler
and the storage-handle provider.

Python floats (monotonic clock readings and TTLs) are modelled as `ℚ`;
SQLite tables are modelled as lists of rows; the per-user cache (a Python
`dict`) is modelled as an association list with `dict`-style get/set/pop.
Fallible operations (SQL execute/commit) are driven by an explicit
outcome parameter, and handlers additionally return a trace of the
side-effecting actions they performed, in order.
-/

set_option autoImplicit false

namespace CCLab

/-! ## Data model: the SQLite store -/

/-- A row of the `events` table: `id INTEGER PRIMARY KEY AUTOINCREMENT, name TEXT, fee INTEGER`. -/
structure Event where
  id : Nat
  name : String
  fee : Int
deriving DecidableEq, Repr

/-- The persisted state: `users(username PK, password)`, `events`, and
`registrations(username, event_id)` (no uniqueness constraint). -/
structure DB where
  users : List (String × String)
  events : List Event
  registrations : List (String × Nat)
deriving DecidableEq, Repr

/-- `SELECT id, name, fee FROM events` (main.py lines 32 and 40). -/
def queryEvents (db : DB) : List (Nat × String × Int) :=
  db.events.map (fun e => (e.id, e.name, e.fee))

/-- The join of main.py lines 52-60 and 71-79:
`SELECT events.name, events.fee FROM events JOIN registrations ON
events.id = registrations.event_id WHERE registrations.username = ?`.
One output row per matching registration; a registration whose
`event_id` matches no event contributes nothing (inner join). -/
def queryMyEvents (db : DB) (username : String) : List (String × Int) :=
  (db.registrations.filter (fun r => r.1 = username)).filterMap
    (fun r => (db.events.find? (fun e => e.id = r.2)).map (fun e => (e.name, e.fee)))

/-! ## Catalog read-through cache (main.py lines 16-47) -/

/-- The shared catalog cache slot: `_events_cache_ts` (initially `0.0`) and
`_events_cache_data` (initially `None`). -/
structure CatalogCache where
  ts : ℚ
  data : Option (List (Nat × String × Int))
deriving DecidableEq, Repr

/-- The module-level initial state of the catalog cache slot. -/
def initialCatalogCache : CatalogCache := ⟨0, none⟩

/-- Result of one `_get_events_cached` call: the returned rows, the cache
slot after the call, and how many times the store was queried (0 or 1). -/
structure CatalogResult where
  rows : List (Nat × String × Int)
  cache : CatalogCache
  queries : Nat
deriving DecidableEq, Repr

/-- `_get_events_cached(db)` (main.py lines 28-47), with the configured TTL
and the single `time.monotonic()` reading (line 35) passed explicitly.
If `TTL ≤ 0` the store is queried directly and the cache is untouched.
Otherwise a present entry with `now - ts < TTL` is returned as a hit;
on a miss the store is queried and the slot is overwritten with the fresh
data and `now` — the reading taken at line 35, before the query. -/
def get_events_cached (ttl now : ℚ) (db : DB) (st : CatalogCache) : CatalogResult :=
  if ttl ≤ 0 then
    ⟨queryEvents db, st, 1⟩
  else
    match st.data with
    | some d =>
        if now - st.ts < ttl then
          ⟨d, st, 0⟩
        else
          let data := queryEvents db
          ⟨data, ⟨now, some data⟩, 1⟩
    | none =>
        let data := queryEvents db
        ⟨data, ⟨now, some data⟩, 1⟩

/-! ## Per-user registrations cache (main.py lines 23-25, 50-90) -/

/-- A cached per-user entry: `(timestamp, rows)`. -/
abbrev MyCacheEntry := ℚ × List (String × Int)

/-- `_my_events_cache`: a `dict` from username to `(timestamp, rows)`,
modelled as an association list whose keys are unique in any reachable
state. -/
abbrev MyCache := List (String × MyCacheEntry)

/-- `dict.get(k)`: the value at the first occurrence of key `k`, if any. -/
def dictGet {V : Type} (k : String) : List (String × V) → Option V
  | [] => none
  | (k', v) :: rest => if k' = k then some v else dictGet k rest

/-- `dict[k] = v`: overwrite the entry at key `k` in place, or append it. -/
def dictSet {V : Type} (k : String) (v : V) : List (String × V) → List (String × V)
  | [] => [(k, v)]
  | (k', v') :: rest => if k' = k then (k, v) :: rest else (k', v') :: dictSet k v rest

/-- `dict.pop(k, None)`: drop the entry at key `k` if present, else no-op. -/
def dictPop {V : Type} (k : String) : List (String × V) → List (String × V)
  | [] => []
  | (k', v') :: rest => if k' = k then rest else (k', v') :: dictPop k rest

/-- Result of one `_get_my_events_cached` call. -/
structure MyEventsResult where
  rows : List (String × Int)
  cache : MyCache
  queries : Nat
deriving DecidableEq, Repr

/-- `_get_my_events_cached(db, username)` (main.py lines 50-85), with the
configured TTL and the single `time.monotonic()` reading (line 63) passed
explicitly. If `TTL ≤ 0` the store is queried directly and the mapping is
untouched. Otherwise a present entry for `username` with `now - ts < TTL`
is a hit; on a miss the join is queried and the username's entry is
overwritten with `(now, data)`. -/
def get_my_events_cached (ttl now : ℚ) (db : DB) (username : String) (st : MyCache) :
    MyEventsResult :=
  if ttl ≤ 0 then
    ⟨queryMyEvents db username, st, 1⟩
  else
    let hit : Option (List (String × Int)) :=
      match dictGet username st with
      | some (ts, d) => if now - ts < ttl then some d else none
      | none => none
    match hit with
    | some d => ⟨d, st, 0⟩
    | none =>
        let data := queryMyEvents db username
        ⟨data, dictSet username (now, data) st, 1⟩

/-- `_invalidate_my_events_cache(username)` (main.py lines 88-90):
`_my_events_cache.pop(username, None)`. -/
def invalidate_my_events_cache (username : String) (st : MyCache) : MyCache :=
  dictPop username st

/-! ## Registration writer (main.py lines 174-189) -/

/-- Outcome of the registration write attempt: the `INSERT` (line 181) or
the `commit()` (line 182) may fail; the outcome is an explicit parameter
of the model. -/
inductive WriteOutcome
  | ok
  | insertFail
  | commitFail
deriving DecidableEq, Repr

/-- Side-effecting actions a handler performs, in program order. -/
inductive Action
  | acquireDb
  | insertReg (u : String) (e : Nat)
  | commit
  | closeDb
  | invalidate (u : String)
deriving DecidableEq, Repr

instance {ε α : Type} [DecidableEq ε] [DecidableEq α] : DecidableEq (Except ε α) := fun a b =>
  match a, b with
  | .error e, .error e' => decidable_of_iff (e = e') (by simp)
  | .error _, .ok _ => isFalse (by simp)
  | .ok _, .error _ => isFalse (by simp)
  | .ok v, .ok v' => decidable_of_iff (v = v') (by simp)

/-- Errors `register_event` can raise. -/
inductive RegError
  | zeroDivision
  | writeFailure
deriving DecidableEq, Repr

/-- Result of one `register_event` call: the outcome (redirect target on
success, the propagated exception otherwise), the committed store state,
the per-user cache mapping, and the trace of performed actions. -/
structure RegResult where
  outcome : Except RegError String
  db : DB
  cache : MyCache
  trace : List Action
deriving DecidableEq, Repr

/-- `register_event(event_id, user)` (main.py lines 174-189).
`event_id == 404` raises `ZeroDivisionError` (line 177) before `get_db()`.
Otherwise the handle is acquired, the registration row inserted and
committed (the `finally` closes the handle on every path; an uncommitted
insert is rolled back when the handle closes), and only after a committed
write is `_invalidate_my_events_cache(user)` called (line 187). -/
def register_event (event_id : Nat) (user : String) (w : WriteOutcome)
    (db : DB) (st : MyCache) : RegResult :=
  if event_id = 404 then
    ⟨.error .zeroDivision, db, st, []⟩
  else
    match w with
    | .insertFail =>
        ⟨.error .writeFailure, db, st, [.acquireDb, .closeDb]⟩
    | .commitFail =>
        ⟨.error .writeFailure, db, st, [.acquireDb, .insertReg user event_id, .closeDb]⟩
    | .ok =>
        let db' : DB := { db with registrations := db.registrations ++ [(user, event_id)] }
        ⟨.ok ("/my-events?user=" ++ user), db', invalidate_my_events_cache user st,
          [.acquireDb, .insertReg user event_id, .commit, .closeDb, .invalidate user]⟩

/-! ## User-account registration (main.py lines 114-125) -/

/-- A kind of failure the user-insert (or its commit) can produce; the
bare `except:` in the source distinguishes none of them. -/
inductive UserErrKind
  | uniqueViolation
  | diskFull
  | otherFailure
deriving DecidableEq, Repr

/-- Outcome of the `INSERT INTO users` plus `commit()` (lines 119-120). -/
inductive UserInsertOutcome
  | ok
  | err (k : UserErrKind)
deriving DecidableEq, Repr

/-- An HTTP-level response value returned by a handler. -/
inductive Response
  | redirect (loc : String) (status : Nat)
  | html (body : String)
deriving DecidableEq, Repr

/-- Result of one `register` call: the response wrapped in `Except` (an
`.error` would mean an exception escaped to the caller), the store state,
and whether the handle was closed. -/
structure RegisterResult where
  response : Except UserErrKind Response
  db : DB
  closed : Bool
deriving DecidableEq, Repr

/-- `register(username, password)` (main.py lines 114-125): the insert and
commit run inside a bare `try/except` that converts every failure into the
"Username already exists" page; an outer `try/finally` closes the handle
on both paths; success redirects to `/login` with status 302. -/
def register (username password : String) (w : UserInsertOutcome) (db : DB) : RegisterResult :=
  match w with
  | .ok =>
      let db' : DB := { db with users := db.users ++ [(username, password)] }
      ⟨.ok (.redirect "/login" 302), db', true⟩
  | .err _ =>
      ⟨.ok (.html "Username already exists. Try a different one."), db, true⟩

/-! ## Storage handle provider (database.py) -/

/-- `_db_initialized` (database.py line 6), the process-wide flag of the
double-checked one-time tuning. -/
structure ProcessTuningState where
  db_initialized : Bool
deriving DecidableEq, Repr

/-- The PRAGMA statements `get_db` can issue. -/
inductive Pragma
  | journalModeWAL
  | synchronousNormal
  | tempStoreMemory
  | busyTimeout3000
deriving DecidableEq, BEq, Repr

/-- `_init_db_settings(conn)` (database.py lines 9-13): the three one-time
store-level tuning options, in order. -/
def init_db_settings : List Pragma :=
  [.journalModeWAL, .synchronousNormal, .tempStoreMemory]

/-- `get_db()` (database.py lines 16-32): applies the one-time tuning if
and only if the flag is still unset (setting it), then the per-connection
`busy_timeout` on every call. Returns the new flag state and the pragmas
issued by this call, in order. -/
def get_db (st : ProcessTuningState) : ProcessTuningState × List Pragma :=
  if st.db_initialized then
    (st, [.busyTimeout3000])
  else
    (⟨true⟩, init_db_settings ++ [.busyTimeout3000])

/-- `n` consecutive `get_db()` calls: final flag state and the
concatenated pragma trace. -/
def run_get_db : Nat → ProcessTuningState → ProcessTuningState × List Pragma
  | 0, st => (st, [])
  | n + 1, st =>
      let r := get_db st
      let r' := run_get_db n r.1
      (r'.1, r.2 ++ r'.2)

/-! ## Operation sequences over the per-user cache -/

/-- The operations that touch the per-user cache mapping: a
`_get_my_events_cached` read (with its clock reading and store state) and
an explicit `_invalidate_my_events_cache`. -/
inductive CacheOp
  | read (now : ℚ) (db : DB) (u : String)
  | invalidate (u : String)
deriving DecidableEq

/-- The cache mapping after one operation. -/
def applyCacheOp (ttl : ℚ) (st : MyCache) : CacheOp → MyCache
  | .read now db u => (get_my_events_cached ttl now db u st).cache
  | .invalidate u => invalidate_my_events_cache u st

/-- The cache mapping after a sequence of operations. -/
def applyCacheOps (ttl : ℚ) (st : MyCache) : List CacheOp → MyCache
  | [] => st
  | op :: ops => applyCacheOps ttl (applyCacheOp ttl st op) ops

/-- The write-then-invalidate ordering on an action trace: some `commit`
occurs strictly before the user's cache invalidation, and no invalidation
of that user precedes it. -/
def writeThenInvalidate (u : String) (tr : List Action) : Prop :=
  ∃ l₁ l₂, tr = l₁ ++ Action.commit :: l₂ ∧
    Action.invalidate u ∉ l₁ ∧ Action.invalidate u ∈ l₂

/-! ## Timed runs of the catalog refresh (for the timestamp contract) -/

/-- One execution of `_get_events_cached` with both physical instants
explicit: the code reads the monotonic clock exactly once, at entry
(`tCheck`, main.py line 35); on a miss the store query completes and the
shared entry is overwritten at the later instant `tWrite` (lines 43-45).
`tWrite` does not influence the result because the code never takes a
second clock reading: line 45 stores the value read at line 35. -/
def get_events_cached_run (ttl tCheck _tWrite : ℚ) (db : DB) (st : CatalogCache) :
    CatalogResult :=
  get_events_cached ttl tCheck db st

/-- Modelled from the spec: the catalog refresh as the claim describes it,
storing as the entry timestamp a monotonic clock reading taken at the
moment the entry is overwritten (`tWrite`), rather than the entry-time
reading. -/
def get_events_cached_spec_ts (ttl tCheck tWrite : ℚ) (db : DB) (st : CatalogCache) :
    CatalogResult :=
  if ttl ≤ 0 then
    ⟨queryEvents db, st, 1⟩
  else
    match st.data with
    | some d =>
        if tCheck - st.ts < ttl then
          ⟨d, st, 0⟩
        else
          let data := queryEvents db
          ⟨data, ⟨tWrite, some data⟩, 1⟩
    | none =>
        let data := queryEvents db
        ⟨data, ⟨tWrite, some data⟩, 1⟩

/-! ## Concrete fixtures used by witnesses and counterexamples -/

/-- A store whose only event is id 2, name "Hack", fee 100. -/
def dbHack : DB := ⟨[], [⟨2, "Hack", 100⟩], []⟩

/-- A store whose only event is id 1, name "B", fee 5. -/
def dbB : DB := ⟨[], [⟨1, "B", 5⟩], []⟩

/-- A populated catalog cache slot (timestamp 0) holding a row that is not
the store's current row. -/
def stStaleA : CatalogCache := ⟨0, some [(9, "A", 7)]⟩

/-! ## Association-list (Python dict) lemmas -/

theorem dictGet_eq_none_of_not_mem {V : Type} (k : String) (m : List (String × V))
    (h : k ∉ m.map Prod.fst) : dictGet k m = none := by
  induction m with
  | nil => rfl
  | cons p rest ih =>
      obtain ⟨k', v'⟩ := p
      simp only [List.map_cons, List.mem_cons, not_or] at h
      rw [dictGet, if_neg (Ne.symm h.1)]
      exact ih h.2

theorem dictGet_dictPop_self {V : Type} (k : String) (m : List (String × V))
    (h : (m.map Prod.fst).Nodup) : dictGet k (dictPop k m) = none := by
  induction m with
  | nil => rfl
  | cons p rest ih =>
      obtain ⟨k', v'⟩ := p
      simp only [List.map_cons, List.nodup_cons] at h
      by_cases hk : k' = k
      · rw [dictPop, if_pos hk]
        exact dictGet_eq_none_of_not_mem k rest (hk ▸ h.1)
      · rw [dictPop, if_neg hk, dictGet, if_neg hk]
        exact ih h.2

theorem dictPop_of_not_mem {V : Type} (k : String) (m : List (String × V))
    (h : dictGet k m = none) : dictPop k m = m := by
  induction m with
  | nil => rfl
  | cons p rest ih =>
      obtain ⟨k', v'⟩ := p
      by_cases hk : k' = k
      · rw [dictGet, if_pos hk] at h
        exact absurd h (by simp)
      · rw [dictGet, if_neg hk] at h
        rw [dictPop, if_neg hk, ih h]

theorem dictGet_dictPop_ne {V : Type} (k v : String) (m : List (String × V))
    (h : v ≠ k) : dictGet v (dictPop k m) = dictGet v m := by
  induction m with
  | nil => rfl
  | cons p rest ih =>
      obtain ⟨k', v'⟩ := p
      by_cases hk : k' = k
      · subst hk
        rw [dictPop, if_pos rfl, dictGet, if_neg (Ne.symm h)]
      · rw [dictPop, if_neg hk, dictGet, dictGet]
        by_cases hv : k' = v
        · rw [if_pos hv, if_pos hv]
        · rw [if_neg hv, if_neg hv, ih]

theorem dictGet_dictSet_self {V : Type} (k : String) (v : V) (m : List (String × V)) :
    dictGet k (dictSet k v m) = some v := by
  induction m with
  | nil => rw [dictSet, dictGet, if_pos rfl]
  | cons p rest ih =>
      obtain ⟨k', v'⟩ := p
      by_cases hk : k' = k
      · rw [dictSet, if_pos hk, dictGet, if_pos rfl]
      · rw [dictSet, if_neg hk, dictGet, if_neg hk, ih]

theorem dictGet_dictSet_ne {V : Type} (k u : String) (v : V) (m : List (String × V))
    (h : u ≠ k) : dictGet u (dictSet k v m) = dictGet u m := by
  induction m with
  | nil => simp [dictSet, dictGet, Ne.symm h]
  | cons p rest ih =>
      obtain ⟨k', v'⟩ := p
      by_cases hk : k' = k
      · subst hk
        rw [dictSet, if_pos rfl, dictGet, if_neg (Ne.symm h), dictGet, if_neg (Ne.symm h)]
      · rw [dictSet, if_neg hk, dictGet, dictGet]
        by_cases hv : k' = u
        · rw [if_pos hv, if_pos hv]
        · rw [if_neg hv, if_neg hv, ih]

/-! ## Behavioural lemmas about the embedded operations -/

/-- A `_get_my_events_cached` call never removes a username's cache entry:
whatever entry is present for `u` before the call, some entry for `u` is
present after it. -/
theorem get_my_events_cached_preserves_presence (ttl now : ℚ) (db : DB) (v u : String)
    (st : MyCache) (h : (dictGet u st).isSome = true) :
    (dictGet u (get_my_events_cached ttl now db v st).cache).isSome = true := by
  unfold get_my_events_cached
  by_cases httl : ttl ≤ 0
  · simpa [if_pos httl]
  · simp only [if_neg httl]
    cases hg : dictGet v st with
    | none =>
        simp only [hg]
        by_cases hv : u = v
        · subst hv; simp [dictGet_dictSet_self]
        · simp [dictGet_dictSet_ne v u _ st hv, h]
    | some e =>
        obtain ⟨ts, d⟩ := e
        simp only [hg]
        by_cases hfresh : now - ts < ttl
        · simp [if_pos hfresh, h]
        · simp only [if_neg hfresh]
          by_cases hv : u = v
          · subst hv; simp [dictGet_dictSet_self]
          · simp [dictGet_dictSet_ne v u _ st hv, h]

/-- `run_get_db` starting from an already-initialized flag issues only the
per-connection busy-timeout pragma and leaves the flag set. -/
theorem run_get_db_initialized (m : Nat) :
    run_get_db m ⟨true⟩ = (⟨true⟩, List.replicate m .busyTimeout3000) := by
  induction m with
  | zero => rfl
  | succ n ih => simp [run_get_db, get_db, ih, List.replicate_succ]

/-- The first `get_db` call (flag unset) applies the three tuning pragmas
and the busy timeout; every later call adds only a busy timeout. -/
theorem run_get_db_from_false (k : Nat) :
    run_get_db (k + 1) ⟨false⟩ =
      (⟨true⟩, Pragma.journalModeWAL :: Pragma.synchronousNormal :: Pragma.tempStoreMemory ::
        Pragma.busyTimeout3000 :: List.replicate k Pragma.busyTimeout3000) := by
  rw [run_get_db]
  simp [get_db, init_db_settings, run_get_db_initialized]

/-- A pragma other than the busy timeout never occurs in a busy-timeout-only trace. -/
theorem count_busy_replicate (p : Pragma) (hp : (Pragma.busyTimeout3000 == p) = false)
    (m : Nat) : (List.replicate m Pragma.busyTimeout3000).count p = 0 := by
  induction m with
  | zero => rfl
  | succ j ih => rw [List.replicate_succ, List.count_cons, ih, hp]; rfl

/-! ## Claim C5 -/

/-- C5: when the configured TTL is ≤ 0, caching is disabled entirely for
both `getCatalog` and `getMyEvents`: every call queries the store directly
(exactly one store query), returns the store's rows, and leaves both the
catalog slot and the per-user mapping untouched. -/
theorem C5_ttl_nonpos_disables_caching (ttl now : ℚ) (db : DB) (st : CatalogCache)
    (u : String) (stM : MyCache) (h : ttl ≤ 0) :
    get_events_cached ttl now db st = ⟨queryEvents db, st, 1⟩ ∧
    get_my_events_cached ttl now db u stM = ⟨queryMyEvents db u, stM, 1⟩ := by
  constructor
  · rw [get_events_cached, if_pos h]
  · rw [get_my_events_cached, if_pos h]

theorem C5_witness :
    get_events_cached 0 7 dbB initialCatalogCache = ⟨queryEvents dbB, initialCatalogCache, 1⟩ ∧
    get_my_events_cached 0 7 dbB "alice" [] = ⟨queryMyEvents dbB "alice", [], 1⟩ :=
  C5_ttl_nonpos_disables_caching 0 7 dbB initialCatalogCache "alice" [] (by decide)

/-! ## Claim C6 -/

/-- C6: over every sequence of `get_db` calls in one process, the three
store-level tuning pragmas are applied exactly once — on the first call —
and the process flag, once true, is never reset; from an initialized flag
no call re-applies any tuning pragma. -/
theorem C6_tuning_applied_exactly_once (n : Nat) (h : 1 ≤ n) :
    (run_get_db n ⟨false⟩).1.db_initialized = true ∧
    (run_get_db n ⟨false⟩).2.count Pragma.journalModeWAL = 1 ∧
    (run_get_db n ⟨false⟩).2.count Pragma.synchronousNormal = 1 ∧
    (run_get_db n ⟨false⟩).2.count Pragma.tempStoreMemory = 1 ∧
    (∀ (m : Nat) (st : ProcessTuningState), st.db_initialized = true →
      (run_get_db m st).1.db_initialized = true ∧
      (run_get_db m st).2.count Pragma.journalModeWAL = 0 ∧
      (run_get_db m st).2.count Pragma.synchronousNormal = 0 ∧
      (run_get_db m st).2.count Pragma.tempStoreMemory = 0) := by
  have hinit : ∀ (m : Nat) (st : ProcessTuningState), st.db_initialized = true →
      (run_get_db m st).1.db_initialized = true ∧
      (run_get_db m st).2.count Pragma.journalModeWAL = 0 ∧
      (run_get_db m st).2.count Pragma.synchronousNormal = 0 ∧
      (run_get_db m st).2.count Pragma.tempStoreMemory = 0 := by
    intro m st hst
    obtain ⟨b⟩ := st
    cases hst
    rw [run_get_db_initialized]
    exact ⟨rfl, count_busy_replicate Pragma.journalModeWAL (by decide) m,
      count_busy_replicate Pragma.synchronousNormal (by decide) m,
      count_busy_replicate Pragma.tempStoreMemory (by decide) m⟩
  obtain ⟨k, rfl⟩ : ∃ k, n = k + 1 := ⟨n - 1, (Nat.succ_pred_eq_of_pos h).symm⟩
  rw [run_get_db_from_false]
  refine ⟨rfl, ?_, ?_, ?_, hinit⟩
  · rw [List.count_cons, List.count_cons, List.count_cons, List.count_cons,
      count_busy_replicate Pragma.journalModeWAL (by decide) k]
    decide
  · rw [List.count_cons, List.count_cons, List.count_cons, List.count_cons,
      count_busy_replicate Pragma.synchronousNormal (by decide) k]
    decide
  · rw [List.count_cons, List.count_cons, List.count_cons, List.count_cons,
      count_busy_replicate Pragma.tempStoreMemory (by decide) k]
    decide

theorem C6_witness :
    (run_get_db 3 ⟨false⟩).1.db_initialized = true ∧
    (run_get_db 3 ⟨false⟩).2.count Pragma.journalModeWAL = 1 ∧
    (run_get_db 3 ⟨false⟩).2.count Pragma.synchronousNormal = 1 ∧
    (run_get_db 3 ⟨false⟩).2.count Pragma.tempStoreMemory = 1 :=
  ⟨(C6_tuning_applied_exactly_once 3 (by decide)).1,
   (C6_tuning_applied_exactly_once 3 (by decide)).2.1,
   (C6_tuning_applied_exactly_once 3 (by decide)).2.2.1,
   (C6_tuning_applied_exactly_once 3 (by decide)).2.2.2.1⟩

/-! ## Claim C7 -/

/-- C7: for every username `u`, `invalidate(u)` removes `u`'s entry from
the per-user mapping if present; when `u` has no entry it is a no-op (the
mapping is returned unchanged, so nothing fails and no entry is created);
and every other username's entry is unchanged in either case. -/
theorem C7_invalidate_contract (u : String) (st : MyCache)
    (h : (st.map Prod.fst).Nodup) :
    dictGet u (invalidate_my_events_cache u st) = none ∧
    (dictGet u st = none → invalidate_my_events_cache u st = st) ∧
    (∀ v, v ≠ u → dictGet v (invalidate_my_events_cache u st) = dictGet v st) := by
  refine ⟨dictGet_dictPop_self u st h, dictPop_of_not_mem u st, ?_⟩
  intro v hv
  exact dictGet_dictPop_ne u v st hv

theorem C7_witness :
    dictGet "alice" (invalidate_my_events_cache "alice" [("bob", (0, [("B", 5)]))]) = none ∧
    invalidate_my_events_cache "alice" [("bob", (0, [("B", 5)]))] = [("bob", (0, [("B", 5)]))] ∧
    dictGet "bob" (invalidate_my_events_cache "alice" [("bob", (0, [("B", 5)]))]) =
      dictGet "bob" [("bob", (0, [("B", 5)]))] :=
  ⟨(C7_invalidate_contract "alice" [("bob", (0, [("B", 5)]))] (by decide)).1,
   (C7_invalidate_contract "alice" [("bob", (0, [("B", 5)]))] (by decide)).2.1 (by decide),
   (C7_invalidate_contract "alice" [("bob", (0, [("B", 5)]))] (by decide)).2.2 "bob" (by decide)⟩

/-- A catalog-cache hit: a present entry within TTL is returned unchanged
with no store query. -/
theorem get_events_cached_hit (ttl now : ℚ) (db : DB) (st : CatalogCache)
    (d : List (Nat × String × Int)) (hd : st.data = some d)
    (hfresh : now - st.ts < ttl) (httl : 0 < ttl) :
    get_events_cached ttl now db st = ⟨d, st, 0⟩ := by
  unfold get_events_cached
  rw [if_neg (not_le.mpr httl), hd]
  show (if now - st.ts < ttl then (⟨d, st, 0⟩ : CatalogResult)
    else ⟨queryEvents db, ⟨now, some (queryEvents db)⟩, 1⟩) = ⟨d, st, 0⟩
  rw [if_pos hfresh]

/-- A catalog-cache miss (entry absent or stale): the store is queried
once and the slot is overwritten with the fresh data and the entry-time
clock reading `now`. -/
theorem get_events_cached_miss (ttl now : ℚ) (db : DB) (st : CatalogCache)
    (httl : 0 < ttl) (hmiss : st.data = none ∨ ttl ≤ now - st.ts) :
    get_events_cached ttl now db st = ⟨queryEvents db, ⟨now, some (queryEvents db)⟩, 1⟩ := by
  unfold get_events_cached
  rw [if_neg (not_le.mpr httl)]
  rcases hmiss with h | h
  · rw [h]
  · cases hdata : st.data with
    | none => rfl
    | some d =>
        show (if now - st.ts < ttl then (⟨d, st, 0⟩ : CatalogResult)
          else ⟨queryEvents db, ⟨now, some (queryEvents db)⟩, 1⟩) =
          ⟨queryEvents db, ⟨now, some (queryEvents db)⟩, 1⟩
        rw [if_neg (not_lt.mpr h)]

/-- A per-user cache miss for `username` (no entry): the join is queried
and returned. -/
theorem get_my_events_cached_miss_rows (ttl now : ℚ) (db : DB) (u : String) (st : MyCache)
    (h : dictGet u st = none) :
    (get_my_events_cached ttl now db u st).rows = queryMyEvents db u := by
  unfold get_my_events_cached
  by_cases httl : ttl ≤ 0
  · rw [if_pos httl]
  · rw [if_neg httl, h]

/-- The success path of `register_event` in closed form. -/
theorem register_event_ok (eid : Nat) (u : String) (db : DB) (st : MyCache)
    (h : eid ≠ 404) :
    register_event eid u .ok db st =
      ⟨.ok ("/my-events?user=" ++ u),
       { db with registrations := db.registrations ++ [(u, eid)] },
       dictPop u st,
       [.acquireDb, .insertReg u eid, .commit, .closeDb, .invalidate u]⟩ := by
  rw [register_event.eq_def, if_neg h]
  rfl

/-- After appending a registration for an event present in the events
table, the join result contains that event's (name, fee) row. -/
theorem mem_queryMyEvents_of_registered (db : DB) (u : String) (eid : Nat) (ev : Event)
    (hev : db.events.find? (fun e => e.id = eid) = some ev) :
    (ev.name, ev.fee) ∈
      queryMyEvents { db with registrations := db.registrations ++ [(u, eid)] } u := by
  unfold queryMyEvents
  rw [List.filter_append, List.filterMap_append]
  apply List.mem_append_right
  simp [List.filter, hev]

/-! ## Claim C1 -/

/-- C1 fails as stated: with an empty events table, `register_event`
succeeds for event id 2 (the insert commits), yet the subsequent
`getMyEvents` read returns the empty sequence — the inner join drops the
registration because no event row matches it, so no returned sequence
element reflects the new registration. -/
theorem C1_counterexample :
    (register_event 2 "alice" .ok ⟨[], [], []⟩ []).outcome = .ok "/my-events?user=alice" ∧
    (get_my_events_cached 1 0 (register_event 2 "alice" .ok ⟨[], [], []⟩ []).db "alice"
      (register_event 2 "alice" .ok ⟨[], [], []⟩ []).cache).rows = [] := by
  constructor <;> decide

/-- C1 (amended): if `register_event(e, u)` succeeds and the event id `e`
is present in the events table, then a subsequent `getMyEvents` call for
`u`, for every TTL value and clock reading, returns a sequence containing
that event's (name, fee) row — the invalidation makes the committed
registration visible regardless of TTL. -/
theorem C1_register_then_visible (eid : Nat) (u : String) (db : DB) (st : MyCache)
    (ev : Event) (h404 : eid ≠ 404)
    (hev : db.events.find? (fun e => e.id = eid) = some ev)
    (hwf : (st.map Prod.fst).Nodup) :
    (register_event eid u .ok db st).outcome = .ok ("/my-events?user=" ++ u) ∧
    (∀ ttl now, (ev.name, ev.fee) ∈
      (get_my_events_cached ttl now (register_event eid u .ok db st).db u
        (register_event eid u .ok db st).cache).rows) := by
  have hmiss : dictGet u (dictPop u st) = none := dictGet_dictPop_self u st hwf
  constructor
  · rw [register_event_ok eid u db st h404]
  · intro ttl now
    rw [register_event_ok eid u db st h404]
    show (ev.name, ev.fee) ∈
      (get_my_events_cached ttl now
        { db with registrations := db.registrations ++ [(u, eid)] } u (dictPop u st)).rows
    rw [get_my_events_cached_miss_rows ttl now _ u _ hmiss]
    exact mem_queryMyEvents_of_registered db u eid ev hev

theorem C1_witness :
    (register_event 2 "alice" .ok dbHack []).outcome = .ok ("/my-events?user=" ++ "alice") ∧
    ("Hack", (100 : Int)) ∈
      (get_my_events_cached 1 0 (register_event 2 "alice" .ok dbHack []).db "alice"
        (register_event 2 "alice" .ok dbHack []).cache).rows :=
  ⟨(C1_register_then_visible 2 "alice" dbHack [] ⟨2, "Hack", 100⟩
      (by decide) (by decide) (by decide)).1,
   (C1_register_then_visible 2 "alice" dbHack [] ⟨2, "Hack", 100⟩
      (by decide) (by decide) (by decide)).2 1 0⟩

/-! ## Claim C3 -/

/-- C3 fails as stated: with TTL 2 and a populated catalog entry
(timestamp 0) holding a row different from the store's current row, a
call at t=1 hits the stale-but-fresh entry while a second call at t=2 —
within TTL of the first, with no intervening store mutation — judges the
entry stale and returns the store's row: the two calls return different
data even though the store was queried at most once. -/
theorem C3_counterexample :
    (0 : ℚ) < 2 ∧ (1 : ℚ) ≤ 2 ∧ (2 : ℚ) - 1 < 2 ∧
    (get_events_cached 2 1 dbB stStaleA).queries +
      (get_events_cached 2 2 dbB (get_events_cached 2 1 dbB stStaleA).cache).queries ≤ 1 ∧
    (get_events_cached 2 1 dbB stStaleA).rows ≠
      (get_events_cached 2 2 dbB (get_events_cached 2 1 dbB stStaleA).cache).rows := by
  refine ⟨by norm_num, by norm_num, by norm_num, ?_, ?_⟩
  · norm_num [get_events_cached, queryEvents, dbB, stStaleA]
  · norm_num [get_events_cached, queryEvents, dbB, stStaleA]

/-- C3 (amended): for every TTL > 0, two sequential `getCatalog` calls
within TTL seconds of each other, with no intervening store mutation and
whose starting cache entry (if any) holds the store's current rows,
return identical data, and the store is queried at most once across the
two calls. -/
theorem C3_hit_suppresses_second_query (ttl t1 t2 : ℚ) (db : DB) (st : CatalogCache)
    (httl : 0 < ttl) (_h12 : t1 ≤ t2) (hwin : t2 - t1 < ttl)
    (hcoh : ∀ d, st.data = some d → d = queryEvents db) :
    (get_events_cached ttl t1 db st).rows =
      (get_events_cached ttl t2 db (get_events_cached ttl t1 db st).cache).rows ∧
    (get_events_cached ttl t1 db st).queries +
      (get_events_cached ttl t2 db (get_events_cached ttl t1 db st).cache).queries ≤ 1 := by
  cases hdata : st.data with
  | none =>
      rw [get_events_cached_miss ttl t1 db st httl (Or.inl hdata)]
      show queryEvents db = (get_events_cached ttl t2 db ⟨t1, some (queryEvents db)⟩).rows ∧
        1 + (get_events_cached ttl t2 db ⟨t1, some (queryEvents db)⟩).queries ≤ 1
      rw [get_events_cached_hit ttl t2 db ⟨t1, some (queryEvents db)⟩ (queryEvents db)
        rfl hwin httl]
      exact ⟨rfl, Nat.le_refl 1⟩
  | some d =>
      have hd : d = queryEvents db := hcoh d hdata
      by_cases hf1 : t1 - st.ts < ttl
      · rw [get_events_cached_hit ttl t1 db st d hdata hf1 httl]
        show d = (get_events_cached ttl t2 db st).rows ∧
          0 + (get_events_cached ttl t2 db st).queries ≤ 1
        by_cases hf2 : t2 - st.ts < ttl
        · rw [get_events_cached_hit ttl t2 db st d hdata hf2 httl]
          exact ⟨rfl, Nat.zero_le 1⟩
        · rw [get_events_cached_miss ttl t2 db st httl (Or.inr (not_lt.mp hf2))]
          exact ⟨hd, Nat.le_refl 1⟩
      · rw [get_events_cached_miss ttl t1 db st httl (Or.inr (not_lt.mp hf1))]
        show queryEvents db = (get_events_cached ttl t2 db ⟨t1, some (queryEvents db)⟩).rows ∧
          1 + (get_events_cached ttl t2 db ⟨t1, some (queryEvents db)⟩).queries ≤ 1
        rw [get_events_cached_hit ttl t2 db ⟨t1, some (queryEvents db)⟩ (queryEvents db)
          rfl hwin httl]
        exact ⟨rfl, Nat.le_refl 1⟩

theorem C3_witness :
    (get_events_cached 2 0 dbB initialCatalogCache).rows =
      (get_events_cached 2 1 dbB (get_events_cached 2 0 dbB initialCatalogCache).cache).rows ∧
    (get_events_cached 2 0 dbB initialCatalogCache).queries +
      (get_events_cached 2 1 dbB
        (get_events_cached 2 0 dbB initialCatalogCache).cache).queries ≤ 1 :=
  C3_hit_suppresses_second_query 2 0 1 dbB initialCatalogCache (by decide) (by decide)
    (by simp) (by simp [initialCatalogCache])

/-! ## Claim C4 -/

/-- C4 fails as stated: on a miss run whose store query completes at
instant 1 (so the entry is overwritten at instant 1) after the entry-time
clock reading 0, the code stores timestamp 0 — the reading taken before
the store query — whereas the claim describes storing a reading taken at
the moment of the overwrite, which would be 1. -/
theorem C4_counterexample :
    (get_events_cached_run 2 0 1 dbB initialCatalogCache).cache.ts = 0 ∧
    (get_events_cached_spec_ts 2 0 1 dbB initialCatalogCache).cache.ts = 1 ∧
    (get_events_cached_run 2 0 1 dbB initialCatalogCache).cache ≠
      (get_events_cached_spec_ts 2 0 1 dbB initialCatalogCache).cache := by
  refine ⟨?_, ?_, ?_⟩ <;>
    norm_num [get_events_cached_run, get_events_cached_spec_ts, get_events_cached,
      initialCatalogCache, queryEvents, dbB]

/-- C4 (amended): on every `getCatalog` cache miss (entry absent or
stale) with TTL > 0, the shared entry is overwritten with the freshly
fetched data and the monotonic reading taken at the start of the call,
when staleness was checked before the store query — independent of the
instant at which the overwrite itself happens — and subsequent staleness
against the stored timestamp is judged as now - timestamp ≥ TTL. -/
theorem C4_miss_stores_check_time (ttl now : ℚ) (db : DB) (st : CatalogCache)
    (httl : 0 < ttl) (hmiss : st.data = none ∨ ttl ≤ now - st.ts) :
    get_events_cached ttl now db st = ⟨queryEvents db, ⟨now, some (queryEvents db)⟩, 1⟩ ∧
    (∀ tW, get_events_cached_run ttl now tW db st = get_events_cached ttl now db st) ∧
    (∀ t', (get_events_cached ttl t' db ⟨now, some (queryEvents db)⟩).queries = 1 ↔
      ttl ≤ t' - now) := by
  refine ⟨get_events_cached_miss ttl now db st httl hmiss, fun tW => rfl, fun t' => ?_⟩
  by_cases hf : t' - now < ttl
  · rw [get_events_cached_hit ttl t' db ⟨now, some (queryEvents db)⟩ (queryEvents db)
      rfl hf httl]
    simp [not_le.mpr hf]
  · rw [get_events_cached_miss ttl t' db ⟨now, some (queryEvents db)⟩ httl
      (Or.inr (not_lt.mp hf))]
    simp [not_lt.mp hf]

theorem C4_witness :
    get_events_cached 2 0 dbB initialCatalogCache =
      ⟨queryEvents dbB, ⟨0, some (queryEvents dbB)⟩, 1⟩ ∧
    ((get_events_cached 2 2 dbB ⟨0, some (queryEvents dbB)⟩).queries = 1 ↔ (2:ℚ) ≤ 2 - 0) :=
  ⟨(C4_miss_stores_check_time 2 0 dbB initialCatalogCache (by decide) (Or.inl rfl)).1,
   (C4_miss_stores_check_time 2 0 dbB initialCatalogCache (by decide) (Or.inl rfl)).2.2 2⟩

/-! ## Claim C2 -/

/-- C2: `register_event` commits the registration insert before
invalidating the user's cache entry (on the success trace a `commit`
precedes the `invalidate`, and no invalidation of the user precedes the
commit); if the insert or the commit fails, the error is propagated, the
store and the per-user cache mapping are unchanged, and no invalidation is
performed. -/
theorem C2_write_then_invalidate (eid : Nat) (u : String) (db : DB) (st : MyCache)
    (h : eid ≠ 404) :
    writeThenInvalidate u (register_event eid u .ok db st).trace ∧
    (∀ w, w ≠ WriteOutcome.ok →
      (register_event eid u w db st).outcome = .error .writeFailure ∧
      (register_event eid u w db st).cache = st ∧
      (register_event eid u w db st).db = db ∧
      Action.invalidate u ∉ (register_event eid u w db st).trace) := by
  constructor
  · rw [register_event.eq_def, if_neg h]
    exact ⟨[.acquireDb, .insertReg u eid], [.closeDb, .invalidate u], rfl, by simp, by simp⟩
  · intro w hw
    cases w with
    | ok => exact absurd rfl hw
    | insertFail =>
        rw [register_event.eq_def, if_neg h]
        exact ⟨rfl, rfl, rfl, by simp⟩
    | commitFail =>
        rw [register_event.eq_def, if_neg h]
        exact ⟨rfl, rfl, rfl, by simp⟩

theorem C2_witness :
    writeThenInvalidate "alice" (register_event 2 "alice" .ok dbHack []).trace ∧
    (register_event 2 "alice" .insertFail dbHack []).outcome = .error .writeFailure ∧
    (register_event 2 "alice" .insertFail dbHack []).cache = [] :=
  ⟨(C2_write_then_invalidate 2 "alice" dbHack [] (by decide)).1,
   ((C2_write_then_invalidate 2 "alice" dbHack [] (by decide)).2 .insertFail (by decide)).1,
   ((C2_write_then_invalidate 2 "alice" dbHack [] (by decide)).2 .insertFail (by decide)).2.1⟩

/-! ## Claim C8 -/

/-- C8: entries of the per-user cache are never removed merely because
their TTL expired: over every operation sequence (reads at arbitrary
clock values, invalidations of other users), a username present in the
mapping stays present unless an explicit `invalidate` of that username
occurs; an expired entry is overwritten in place on the next miss, never
evicted. -/
theorem C8_entries_survive_ttl_expiry (ttl : ℚ) (u : String) (st : MyCache)
    (ops : List CacheOp) (hu : (dictGet u st).isSome = true)
    (hno : CacheOp.invalidate u ∉ ops) :
    (dictGet u (applyCacheOps ttl st ops)).isSome = true := by
  induction ops generalizing st with
  | nil => exact hu
  | cons op rest ih =>
      rw [List.mem_cons, not_or] at hno
      rw [applyCacheOps]
      cases op with
      | read now db v =>
          exact ih _ (get_my_events_cached_preserves_presence ttl now db v u st hu) hno.2
      | invalidate v =>
          have huv : u ≠ v := fun he => hno.1 (he ▸ rfl)
          have : dictGet u (applyCacheOp ttl st (CacheOp.invalidate v)) = dictGet u st :=
            dictGet_dictPop_ne v u st huv
          exact ih _ (this ▸ hu) hno.2

theorem C8_witness :
    (dictGet "alice" (applyCacheOps 1 [("alice", (0, [("B", 5)]))]
      [CacheOp.read 5 dbB "alice", CacheOp.invalidate "bob",
       CacheOp.read 9 dbB "alice"])).isSome = true :=
  C8_entries_survive_ttl_expiry 1 "alice" [("alice", (0, [("B", 5)]))]
    [CacheOp.read 5 dbB "alice", CacheOp.invalidate "bob", CacheOp.read 9 dbB "alice"]
    (by decide) (by decide)

/-! ## Claim C9 -/

/-- C9: for `event_id = 404` the registration handler always raises the
division-by-zero error before acquiring a storage handle: for every
username and write outcome, the result is the `zeroDivision` error, the
store and the per-user cache are unchanged, and the action trace is empty
(no handle acquired, no row inserted, no invalidation). -/
theorem C9_event_404_raises_before_acquire (u : String) (w : WriteOutcome) (db : DB)
    (st : MyCache) :
    register_event 404 u w db st = ⟨.error .zeroDivision, db, st, []⟩ := by
  rw [register_event.eq_def, if_pos rfl]

/-! ## Claim C10 -/

/-- C10: in user-account registration, every failure of the insert or its
commit — of any kind — is caught by the bare `except` and returned as the
"Username already exists" page; no exception propagates to the caller
(the response is always an `.ok` value), and the handle is closed on both
the success and failure paths. -/
theorem C10_register_bare_except (u p : String) (w : UserInsertOutcome) (db : DB) :
    (register u p w db).closed = true ∧
    (∃ resp, (register u p w db).response = .ok resp) ∧
    (∀ k, (register u p (.err k) db).response =
      .ok (.html "Username already exists. Try a different one.")) ∧
    (register u p .ok db).response = .ok (.redirect "/login" 302) := by
  refine ⟨?_, ?_, fun k => rfl, rfl⟩
  · cases w <;> rfl
  · cases w with
    | ok => exact ⟨_, rfl⟩
    | err k => exact ⟨_, rfl⟩

end CCLab
